import Mathlib

/-!
Verification development for the file_guessr repository (src/database.py,
src/llm.py, src/main.py).  Strings are modelled as `List Char`; SQLite rows
and Elasticsearch documents as Lean structures; the external collaborators
(the Elasticsearch client, `json.loads`, the Ollama chat call, the
filesystem) appear as explicit parameters at the exact boundary where the
Python code calls them.
-/

/-! ### Characters and Python string helpers -/

/-- The SQL LIKE multi-character wildcard. -/
def pctC : Char := '%'

/-- The SQL LIKE single-character wildcard. -/
def undC : Char := '_'

/-- ASCII-case-insensitive character equality.  `Char.toLower` lowers only
ASCII letters, which matches SQLite's default `LIKE` case folding (ASCII
only; other characters compare exactly). -/
def eqCI (c d : Char) : Bool := Char.toLower c == Char.toLower d

/-- How one SQL LIKE pattern character matches one subject character:
`_` matches anything, other characters match ASCII-case-insensitively. -/
def charLike (c d : Char) : Bool :=
  if c = undC then true else eqCI c d

/-- Whitespace as recognised by Python's `str.split()` / `str.strip()`
(the ASCII whitespace characters; other Unicode whitespace is not used by
any input in this development). -/
def pySpace (c : Char) : Bool :=
  c == ' ' || c == '\t' || c == '\n' || c == '\r' ||
    c == Char.ofNat 11 || c == Char.ofNat 12

/-- Python `str.strip()`: remove leading and trailing whitespace. -/
def pyStrip (s : List Char) : List Char :=
  ((s.dropWhile pySpace).reverse.dropWhile pySpace).reverse

/-- Worker for `pySplit`, carrying the current (reversed) word. -/
def pySplitGo : List Char → List Char → List (List Char)
  | [], acc => if acc.isEmpty then [] else [acc.reverse]
  | c :: cs, acc =>
    if pySpace c then
      if acc.isEmpty then pySplitGo cs [] else acc.reverse :: pySplitGo cs []
    else pySplitGo cs (c :: acc)

/-- Python `str.split()` with no argument: split on runs of whitespace,
discarding empty pieces. -/
def pySplit (s : List Char) : List (List Char) := pySplitGo s []

/-! ### SQLite LIKE matching

`database.py` builds `LIKE` conditions (`_search_sqlite_fallback`, line 301:
`like = f"%{term}%"`; `remove_watched_folder`, line 396:
`file_path LIKE folder_path + "%"`).  SQLite's `LIKE` is ASCII-case-
insensitive and treats `%` (any sequence) and `_` (any one character) in
the pattern as wildcards; there is no ESCAPE clause in the source. -/

/-- `anySuffix f s` is true when `f` holds of some suffix of `s`
(including `s` itself and `[]`). -/
def anySuffix (f : List Char → Bool) : List Char → Bool
  | [] => f []
  | d :: s => f (d :: s) || anySuffix f s

/-- Full-string SQL LIKE matching, pattern against subject. -/
def likeMatch : List Char → List Char → Bool
  | [], s => s.isEmpty
  | c :: p, s =>
    if c = pctC then anySuffix (likeMatch p) s
    else
      match s with
      | [] => false
      | d :: s2 => charLike c d && likeMatch p s2

/-! ### Case-insensitive substring containment (the spec's notion) -/

/-- `ciStarts t s`: `t` is an ASCII-case-insensitive prefix of `s`. -/
def ciStarts : List Char → List Char → Bool
  | [], _ => true
  | _ :: _, [] => false
  | c :: t, d :: s => eqCI c d && ciStarts t s

/-- `ciContains s t`: `t` appears as an ASCII-case-insensitive substring
of `s`. -/
def ciContains : List Char → List Char → Bool
  | [], t => ciStarts t []
  | d :: s, t => ciStarts t (d :: s) || ciContains s t

/-- A term free of SQL LIKE wildcard characters. -/
def noWild (t : List Char) : Bool := t.all (fun c => !(c == pctC) && !(c == undC))

/-! ### Equation and bridge lemmas for LIKE -/

theorem anySuffix_nil (f : List Char → Bool) : anySuffix f [] = f [] := rfl

theorem anySuffix_cons (f : List Char → Bool) (d : Char) (s : List Char) :
    anySuffix f (d :: s) = (f (d :: s) || anySuffix f s) := rfl

theorem anySuffix_congr (f g : List Char → Bool) (h : ∀ x, f x = g x) :
    ∀ s, anySuffix f s = anySuffix g s := by
  intro s
  induction s with
  | nil => simp [anySuffix_nil, h]
  | cons d s ih => simp [anySuffix_cons, h, ih]

theorem anySuffix_of_self (f : List Char → Bool) (s : List Char)
    (h : f s = true) : anySuffix f s = true := by
  cases s with
  | nil => simpa [anySuffix_nil] using h
  | cons d s => simp [anySuffix_cons, h]

theorem likeMatch_nil (s : List Char) : likeMatch [] s = s.isEmpty := by
  cases s <;> rfl

theorem likeMatch_pct (p s : List Char) :
    likeMatch (pctC :: p) s = anySuffix (likeMatch p) s := by
  simp [likeMatch]

theorem likeMatch_cons_nil (c : Char) (p : List Char) (hc : ¬ c = pctC) :
    likeMatch (c :: p) [] = false := by
  simp [likeMatch, hc]

theorem likeMatch_cons_cons (c : Char) (p : List Char) (hc : ¬ c = pctC)
    (d : Char) (s : List Char) :
    likeMatch (c :: p) (d :: s) = (charLike c d && likeMatch p s) := by
  simp [likeMatch, hc]

/-- The pattern consisting of a single `%` matches every string. -/
theorem likeMatch_pct_all (s : List Char) : likeMatch [pctC] s = true := by
  rw [likeMatch_pct]
  induction s with
  | nil => simp [anySuffix_nil, likeMatch_nil]
  | cons d s ih => simp [anySuffix_cons, ih]

/-- A wildcard-free pattern followed by `%` matches exactly the strings it
is a case-insensitive prefix of. -/
theorem likeMatch_noWild_then_pct (t : List Char) (hw : noWild t = true) :
    ∀ s : List Char, likeMatch (t ++ [pctC]) s = ciStarts t s := by
  induction t with
  | nil =>
    intro s
    simpa [ciStarts] using likeMatch_pct_all s
  | cons c t ih =>
    have hall : (!(c == pctC) && !(c == undC)) = true ∧ noWild t = true := by
      simpa [noWild, List.all_cons] using hw
    have hc : ¬ c = pctC := by
      have := hall.1
      intro h
      simp [h] at this
    have hund : ¬ c = undC := by
      have := hall.1
      intro h
      simp [h] at this
    intro s
    cases s with
    | nil => simp [likeMatch_cons_nil _ _ hc, ciStarts]
    | cons d s =>
      rw [List.cons_append, likeMatch_cons_cons c _ hc]
      simp [ciStarts, charLike, hund, ih hall.2 s]

/-- The pattern `%t%` (the one `_search_sqlite_fallback` builds), for a
wildcard-free term `t`, matches exactly the strings containing `t` as a
case-insensitive substring. -/
theorem likeMatch_pct_t_pct (t : List Char) (hw : noWild t = true)
    (s : List Char) :
    likeMatch (pctC :: (t ++ [pctC])) s = ciContains s t := by
  rw [likeMatch_pct]
  rw [anySuffix_congr _ _ (likeMatch_noWild_then_pct t hw) s]
  induction s with
  | nil => simp [anySuffix_nil, ciContains]
  | cons d s ih => simp [anySuffix_cons, ciContains, ih]

/-- A string with literal prefix `f` is matched by the LIKE pattern
`f ++ "%"` (for any `f`, wildcards in `f` only widen the match). -/
theorem likeMatch_of_startsWith (f : List Char) :
    ∀ p : List Char, f.isPrefixOf p = true → likeMatch (f ++ [pctC]) p = true := by
  induction f with
  | nil =>
    intro p _
    simpa using likeMatch_pct_all p
  | cons c f ih =>
    intro p hp
    cases p with
    | nil => simp [List.isPrefixOf] at hp
    | cons d p =>
      obtain ⟨hcd, hfp⟩ : c = d ∧ f.isPrefixOf p = true := by
        simpa [List.isPrefixOf] using hp
      subst hcd
      by_cases hc : c = pctC
      · subst hc
        rw [List.cons_append, likeMatch_pct]
        have hrec : likeMatch (f ++ [pctC]) p = true := ih p hfp
        have : anySuffix (likeMatch (f ++ [pctC])) p = true :=
          anySuffix_of_self _ _ hrec
        simp [anySuffix_cons, this]
      · rw [List.cons_append, likeMatch_cons_cons c _ hc]
        simp [charLike, eqCI, ih p hfp]

/-- `ciStarts` agrees with list-prefix on the ASCII-lowered strings. -/
theorem ciStarts_iff (t : List Char) :
    ∀ s : List Char, ciStarts t s = true ↔ t.map Char.toLower <+: s.map Char.toLower := by
  induction t with
  | nil => intro s; simp [ciStarts]
  | cons c t ih =>
    intro s
    cases s with
    | nil => simp [ciStarts]
    | cons d s =>
      simp [ciStarts, List.map_cons, List.cons_prefix_cons, eqCI, ih s, and_comm]

/-- `ciContains` agrees with list-infix on the ASCII-lowered strings: it
decides whether `t` appears as a case-insensitive substring of `s`. -/
theorem ciContains_iff (t : List Char) :
    ∀ s : List Char, ciContains s t = true ↔ t.map Char.toLower <:+: s.map Char.toLower := by
  intro s
  induction s with
  | nil =>
    simp [ciContains, ciStarts_iff, List.prefix_nil, List.infix_nil]
  | cons d s ih =>
    simp [ciContains, List.map_cons, List.infix_cons_iff, ciStarts_iff, ih,
      List.map_cons]

/-! ### Record Store rows (src/database.py, tables `files` / `watched_folders`) -/

/-- One row of the SQLite `files` table (src/database.py lines 152-165).
`file_path` is UNIQUE; times and sizes are numeric. -/
structure FileRow where
  file_path : List Char
  file_name : List Char
  file_type : List Char
  file_size : Int
  modified_time : Int
  summary : List Char
  keywords : List Char
  raw_text : List Char
  indexed_at : Int
deriving DecidableEq

/-- One row of the `watched_folders` table (src/database.py lines 168-174). -/
structure FolderRow where
  folder_path : List Char
  added_at : Int
deriving DecidableEq

/-- The SQLite database state, rows in table (insertion) order. -/
structure DbState where
  files : List FileRow
  watched_folders : List FolderRow
deriving DecidableEq

/-- One Elasticsearch document as written by `_index_to_es`
(src/database.py lines 96-116), keyed by `_path_to_id file_path`. -/
structure EsDoc where
  id : List Char
  file_name : List Char
  summary : List Char
  keywords : List Char
  raw_text : List Char
  file_path : List Char
  file_type : List Char
  file_size : Int
  modified_time : Int
deriving DecidableEq

/-! ### src/database.py operations -/

/-- Characters the regex class `[^a-zA-Z0-9_.\-]` in `_path_to_id`
(src/database.py line 134) leaves unchanged. -/
def idSafe (c : Char) : Bool :=
  ('a' ≤ c && c ≤ 'z') || ('A' ≤ c && c ≤ 'Z') || ('0' ≤ c && c ≤ '9') ||
    c == undC || c == '.' || c == '-'

/-- `_path_to_id` (src/database.py lines 131-134): replace every character
outside `[a-zA-Z0-9_.\-]` with `_`. -/
def path_to_id (file_path : List Char) : List Char :=
  file_path.map (fun c => if idSafe c then c else undC)

/-- The LIKE condition `_search_sqlite_fallback` builds for one term
(src/database.py lines 300-305): the pattern `%term%` against each of
`file_name`, `summary`, `keywords`. -/
def rowLikeTerm (r : FileRow) (t : List Char) : Bool :=
  likeMatch (pctC :: (t ++ [pctC])) r.file_name ||
    likeMatch (pctC :: (t ++ [pctC])) r.summary ||
    likeMatch (pctC :: (t ++ [pctC])) r.keywords

/-- `_search_sqlite_fallback` (src/database.py lines 289-317): split the
query on whitespace; empty term list returns `[]`; otherwise the rows
satisfying the OR of the per-term LIKE conditions, in table order, capped
by `LIMIT`.  (The SELECT projects seven of the columns; the projection is
the identity on everything the claims mention, so rows are returned
whole.) -/
def search_sqlite_fallback (files : List FileRow) (query : List Char)
    (limit : Nat) : List FileRow :=
  let terms := pySplit query
  if terms.isEmpty then []
  else (files.filter (fun r => terms.any (fun t => rowLikeTerm r t))).take limit

/-- The row `upsert_file` writes (src/database.py lines 190-204), with
`indexed_at` the wall-clock `time.time()` value passed in as `now`. -/
def mkFileRow (p name ftype : List Char) (size mtime : Int)
    (summary keywords rawText : List Char) (now : Int) : FileRow :=
  ⟨p, name, ftype, size, mtime, summary, keywords, rawText, now⟩

/-- `upsert_file` (src/database.py lines 185-213), SQLite side:
`INSERT ... ON CONFLICT(file_path) DO UPDATE` — replace the row with the
conflicting path if one exists, else append a fresh row. -/
def upsert_file (p name ftype : List Char) (size mtime : Int)
    (summary keywords rawText : List Char) (now : Int)
    (files : List FileRow) : List FileRow :=
  if files.any (fun r => r.file_path == p) then
    files.map (fun r =>
      if r.file_path == p then
        mkFileRow p name ftype size mtime summary keywords rawText now
      else r)
  else files ++ [mkFileRow p name ftype size mtime summary keywords rawText now]

/-- `remove_watched_folder` (src/database.py lines 390-408): delete the
folder row by equality, delete `files` rows whose path matches the LIKE
pattern `folder_path + "%"`, and, when the ES client is available
(`es = some docs`), delete the ES documents whose `file_path` has the
folder path as a literal prefix (a `prefix` query on a keyword field). -/
def remove_watched_folder (folder_path : List Char) (st : DbState)
    (es : Option (List EsDoc)) : DbState × Option (List EsDoc) :=
  ({ files := st.files.filter
        (fun r => !(likeMatch (folder_path ++ [pctC]) r.file_path)),
     watched_folders := st.watched_folders.filter
        (fun f => !(f.folder_path == folder_path)) },
   es.map (fun docs => docs.filter
        (fun d => !(folder_path.isPrefixOf d.file_path))))

/-- Modelled from the spec: `ListByFolder(prefix) -> records` (§4.1 Record
Store contract) has no implementation under src/; per the spec it returns
the stored records whose path starts with the folder path. -/
def list_by_folder (folder_path : List Char) (files : List FileRow) :
    List FileRow :=
  files.filter (fun r => folder_path.isPrefixOf r.file_path)

/-- Modelled from the spec: the Search-Index side of `ListByFolder` — the
documents whose `file_path` starts with the folder path. -/
def es_list_by_folder (folder_path : List Char) (docs : List EsDoc) :
    List EsDoc :=
  docs.filter (fun d => folder_path.isPrefixOf d.file_path)

/-- `_get_es` (src/database.py lines 19-54).  The module global `_es` is
the `cached` argument; the combined outcome of the connection attempts in
lines 31-50 (the first URL that yields a working client, `none` when every
attempt fails) is the `probe` argument, consulted only when the cache is
empty.  Returns (result, new value of `_es`, whether a connection attempt
was made on this call). -/
def get_es (probe : Option Nat) (cached : Option Nat) :
    Option Nat × Option Nat × Bool :=
  match cached with
  | some c => (some c, some c, false)
  | none => (probe, probe, true)

/-! ### src/llm.py: response normalisation and degradation -/

/-- Backtick (written by code point to keep the source plain). -/
def btC : Char := Char.ofNat 96

/-- Opening curly brace. -/
def lbC : Char := Char.ofNat 123

/-- Closing curly brace. -/
def rbC : Char := Char.ofNat 125

/-- A markdown code-fence marker, three backticks. -/
def fenceMark : List Char := [btC, btC, btC]

/-- The lazy group of the fence regex
(src/llm.py line 49, pattern three-backticks `(?:json)?\s*\n?(.*?)\n?`
three-backticks, DOTALL): the shortest prefix of the remaining text that
is followed by an optional newline and a closing fence. -/
def fenceBody : List Char → Option (List Char)
  | [] => none
  | c :: cs =>
    if fenceMark.isPrefixOf (c :: cs) then some []
    else if c == '\n' && fenceMark.isPrefixOf cs then some []
    else (fenceBody cs).map (fun b => c :: b)

/-- `re.search` of the fence pattern (src/llm.py lines 49-51): scan for the
leftmost opening fence, skip an optional `json` tag and the greedy run of
whitespace (which subsumes the following optional newline), and take the
lazy body; if no closing fence follows, resume the scan one character
later, as backtracking search does. -/
def fenceExtract : List Char → Option (List Char)
  | [] => none
  | c :: cs =>
    if fenceMark.isPrefixOf (c :: cs) then
      let rest := (c :: cs).drop 3
      let rest2 := if ['j', 's', 'o', 'n'].isPrefixOf rest then rest.drop 4 else rest
      match fenceBody (rest2.dropWhile pySpace) with
      | some content => some content
      | none => fenceExtract cs
    else fenceExtract cs

/-- `re.search` of the greedy DOTALL pattern brace-dot-star-brace
(src/llm.py line 54): the span from the first opening brace through the
last closing brace after it, when both exist. -/
def braceSpan (s : List Char) : Option (List Char) :=
  let t := s.dropWhile (fun c => !(c == lbC))
  match t with
  | [] => none
  | _ :: _ =>
    match (t.reverse.dropWhile (fun c => !(c == rbC))).reverse with
    | [] => none
    | u :: us => some (u :: us)

/-- The two fields of a decoded JSON object that the src/llm.py callers
read.  `json.loads` itself is Python-stdlib code outside the repository;
it enters as the `jsonLoads` argument of `parse_json_response`, returning
`none` exactly where the Python call raises `JSONDecodeError`. -/
structure JsonFields where
  summary : Option (List Char)
  keywords : Option (List (List Char))
deriving DecidableEq

/-- `_parse_json_response` (src/llm.py lines 46-62): replace the text by
the content of a markdown code fence when one is found; decode the
brace-to-brace span when one is found; on any failure fall back to
`{"summary": text.strip(), "keywords": []}` — a total function, mirroring
that the Python code catches the only fallible call. -/
def parse_json_response (jsonLoads : List Char → Option JsonFields)
    (text : List Char) : JsonFields :=
  let t := (fenceExtract text).getD text
  match braceSpan t with
  | some span =>
    match jsonLoads span with
    | some d => d
    | none => { summary := some (pyStrip t), keywords := some [] }
  | none => { summary := some (pyStrip t), keywords := some [] }

/-- The `{summary, keywords}` record the enrichment operations return. -/
structure LlmResult where
  summary : List Char
  keywords : List (List Char)
deriving DecidableEq

/-- The ensure-required-fields step (src/llm.py lines 90-94 and 139-142):
missing `summary` becomes `""`, missing `keywords` becomes `[]`. -/
def ensureFields (d : JsonFields) : LlmResult :=
  { summary := d.summary.getD [], keywords := d.keywords.getD [] }

/-- `extract_keywords` (src/llm.py lines 65-98).  The awaited `_chat` call
is external (Ollama over HTTP); its outcome enters as `chat`, with
`.error` covering every exception the `try` block catches (timeout,
connection error, HTTP error).  On error the placeholder record is
returned; nothing is raised. -/
def extract_keywords (chat : Except Unit (List Char))
    (jsonLoads : List Char → Option JsonFields) (file_name : List Char) :
    LlmResult :=
  match chat with
  | .ok response => ensureFields (parse_json_response jsonLoads response)
  | .error _ =>
    { summary := ("Error processing file: ").toList ++ file_name, keywords := [] }

/-- `describe_image` (src/llm.py lines 101-146), same structure as
`extract_keywords` with its own placeholder summary. -/
def describe_image (chat : Except Unit (List Char))
    (jsonLoads : List Char → Option JsonFields) (file_name : List Char) :
    LlmResult :=
  match chat with
  | .ok response => ensureFields (parse_json_response jsonLoads response)
  | .error _ =>
    { summary := ("Image file: ").toList ++ file_name, keywords := [] }

/-! ### src/main.py: the HTTP handlers the claims mention -/

/-- Process-wide state seen by the handlers: the SQLite database, the ES
documents (`none` while the engine is unavailable), and the
`IndexingStatus.isIndexing` flag.  The flag is produced by
`get_index_status` (indexer.py, which is not under src/); per spec §3 it
is a single boolean the handlers only read. -/
structure AppState where
  db : DbState
  es : Option (List EsDoc)
  is_indexing : Bool
deriving DecidableEq

/-- The four outcomes of `start_indexing` (src/main.py lines 96-114). -/
inductive ScanResponse
  | missing : ScanResponse
  | notFound : List Char → ScanResponse
  | conflict : ScanResponse
  | started : List Char → ScanResponse
deriving DecidableEq

/-- The HTTP status the handler attaches to each outcome:
400 for a missing `folder_path`, 400 with body
`Folder not found: {path}` for a nonexistent folder, 409 for
`Indexing is already in progress`, 200 on success. -/
def scanStatusCode : ScanResponse → Nat
  | .missing => 400
  | .notFound _ => 400
  | .conflict => 409
  | .started _ => 200

/-- `start_indexing` (src/main.py lines 96-114).  `isdir` is the
filesystem probe `os.path.isdir`.  Returns the response, the state when
the handler returns (the handler itself writes nothing), and whether the
background `index_folder` task was queued. -/
def start_indexing (isdir : List Char → Bool) (raw_folder_path : List Char)
    (st : AppState) : ScanResponse × AppState × Bool :=
  let folder_path := pyStrip raw_folder_path
  if folder_path.isEmpty then (.missing, st, false)
  else if !(isdir folder_path) then (.notFound folder_path, st, false)
  else if st.is_indexing then (.conflict, st, false)
  else (.started folder_path, st, true)

/-- The outcomes of `clear_index` (src/main.py lines 232-239). -/
inductive ClearResponse
  | conflict : ClearResponse
  | cleared : ClearResponse
deriving DecidableEq

/-- HTTP status for `clear_index`: 409 on conflict, 200 on success. -/
def clearStatusCode : ClearResponse → Nat
  | .conflict => 409
  | .cleared => 200

/-- `clear_index` (src/main.py lines 232-239) together with
`database.clear_db` (src/database.py lines 353-368): while indexing it
answers 409 touching nothing; otherwise both SQLite tables are emptied
and, when the ES client is available, the index is deleted and recreated
empty. -/
def clear_index (st : AppState) : ClearResponse × AppState :=
  if st.is_indexing then (.conflict, st)
  else
    (.cleared,
     { st with db := { files := [], watched_folders := [] },
               es := st.es.map (fun _ => []) })

/-! ### Claim C3 — path→id mapping -/

/-- C3: the claim says `_path_to_id` is deterministic and collision-free
for distinct practical paths.  Determinism holds trivially (`path_to_id`
is a function), but collision-freedom fails: the distinct four-character
paths `/a/b` and `/a_b` are both mapped to the id `_a_b`, because the
replacement character `_` is itself in the preserved class. -/
theorem C3_path_to_id_collision :
    path_to_id ("/a/b".toList) = path_to_id ("/a_b".toList) ∧
      (("/a/b".toList == "/a_b".toList) = false) := by decide

/-! ### Claim C4 — lazy cached availability probe -/

/-- C4 counterexample: starting from an empty cache, a failed probe leaves
the cache empty (`.2.1 = none`), and the *next* accessor call makes a
connection attempt again (`.2.2 = true`), contradicting "after the first
connection attempt fails, every subsequent call uses the fallback without
attempting a new connection". -/
theorem C4_counterexample :
    (get_es none none).2.1 = none ∧ (get_es none none).2.2 = true ∧
      (get_es none (get_es none none).2.1).2.2 = true := by decide

/-- C4 amended: the probe is lazy and a *successful* connection is cached
for the session — once `_es` holds a client every call returns it with no
connection attempt — but a failure is not cached: whenever the cache is
empty, the call makes a fresh connection attempt and returns and stores
whatever the probe yields (there is also no `Reset` operation in the
code). -/
theorem C4_probe_caching (probe : Option Nat) (c : Nat) :
    get_es probe (some c) = (some c, some c, false) ∧
      get_es probe none = (probe, probe, true) := ⟨rfl, rfl⟩

/-! ### Claim C8 — enrichment degrades instead of raising -/

/-- C8: for every file name, every `json.loads` behaviour and every
failure of the underlying model call, `extract_keywords` and
`describe_image` return their placeholder-summary record with an empty
keyword list instead of propagating the exception (both embeddings are
total functions, mirroring the `try/except` that wraps the whole body). -/
theorem C8_enrichment_never_raises (e : Unit) (file_name : List Char)
    (jsonLoads : List Char → Option JsonFields) :
    extract_keywords (.error e) jsonLoads file_name =
      { summary := ("Error processing file: ").toList ++ file_name,
        keywords := [] } ∧
    describe_image (.error e) jsonLoads file_name =
      { summary := ("Image file: ").toList ++ file_name, keywords := [] } :=
  ⟨rfl, rfl⟩

/-! ### Claim C9 — nonexistent folder rejected with no state change -/

/-- C9: when the stripped folder path is nonempty but does not exist on
disk, `start_indexing` rejects the request synchronously with the
not-found response (HTTP 400, body `Folder not found: {path}`), the state
is returned unchanged, and no background indexing task is queued. -/
theorem C9_scan_not_found (isdir : List Char → Bool) (raw : List Char)
    (st : AppState) (hne : (pyStrip raw).isEmpty = false)
    (hdir : isdir (pyStrip raw) = false) :
    start_indexing isdir raw st = (.notFound (pyStrip raw), st, false) ∧
      scanStatusCode (.notFound (pyStrip raw)) = 400 := by
  unfold start_indexing
  simp [hne, hdir, scanStatusCode]

/-- C9 witness at a concrete nonexistent path and concrete state. -/
theorem C9_scan_not_found_witness :
    start_indexing (fun _ => false) ("/nope".toList)
        ⟨⟨[], []⟩, none, false⟩ =
      (.notFound ("/nope".toList), ⟨⟨[], []⟩, none, false⟩, false) :=
  (C9_scan_not_found (fun _ => false) ("/nope".toList)
    ⟨⟨[], []⟩, none, false⟩ (by decide) rfl).1

/-! ### Claim C5 — conflict while indexing -/

/-- C5: while `IndexingStatus.isIndexing` is true, an otherwise-valid
start-scan request (nonempty path naming an existing directory) and a
clear-index request are both rejected synchronously with the
distinguishable 409 conflict response, the state is returned unchanged by
both handlers, and no background task is queued. -/
theorem C5_conflict_while_indexing (isdir : List Char → Bool)
    (raw : List Char) (st : AppState) (hidx : st.is_indexing = true)
    (hne : (pyStrip raw).isEmpty = false)
    (hdir : isdir (pyStrip raw) = true) :
    start_indexing isdir raw st = (.conflict, st, false) ∧
      clear_index st = (.conflict, st) ∧
      scanStatusCode .conflict = 409 ∧ clearStatusCode .conflict = 409 := by
  unfold start_indexing clear_index
  simp [hne, hdir, hidx, scanStatusCode, clearStatusCode]

/-- C5 witness at a concrete existing path with indexing in progress. -/
theorem C5_conflict_while_indexing_witness :
    start_indexing (fun _ => true) ("/data".toList) ⟨⟨[], []⟩, none, true⟩ =
        (.conflict, ⟨⟨[], []⟩, none, true⟩, false) ∧
      clear_index ⟨⟨[], []⟩, none, true⟩ =
        (.conflict, ⟨⟨[], []⟩, none, true⟩) := by
  have h := C5_conflict_while_indexing (fun _ => true) ("/data".toList)
    ⟨⟨[], []⟩, none, true⟩ rfl (by decide) rfl
  exact ⟨h.1, h.2.1⟩

/-! ### Claim C10 — whitespace-only query -/

/-- A query of pure whitespace splits to no terms. -/
theorem pySplitGo_all_space (s : List Char) (h : s.all pySpace = true) :
    pySplitGo s [] = [] := by
  induction s with
  | nil => rfl
  | cons c cs ih =>
    obtain ⟨h1, h2⟩ : pySpace c = true ∧ cs.all pySpace = true := by
      simpa [List.all_cons] using h
    simp [pySplitGo, h1, ih h2]

/-- C10: for every query consisting only of whitespace (including the
empty string) and every limit and store contents, the fallback search
returns the empty list (its empty-terms guard) rather than matching all
records. -/
theorem C10_blank_query_empty (query : List Char)
    (h : query.all pySpace = true) (limit : Nat) (files : List FileRow) :
    search_sqlite_fallback files query limit = [] := by
  unfold search_sqlite_fallback
  simp [pySplit, pySplitGo_all_space query h]

/-- C10 witness on a whitespace query against a nonempty store. -/
theorem C10_blank_query_empty_witness :
    search_sqlite_fallback
        [⟨"p".toList, "abc".toList, [], 0, 0, [], [], [], 0⟩]
        (" \t ".toList) 20 = [] :=
  C10_blank_query_empty (" \t ".toList) (by decide) 20
    [⟨"p".toList, "abc".toList, [], 0, 0, [], [], [], 0⟩]

/-! ### Claim C7 — normalising an unparseable collaborator response -/

/-- C7 counterexample: for the response consisting of the text `hello`
wrapped in a markdown code fence (no JSON anywhere), the code first
replaces the text by the fence *content*, so the fallback summary is
`hello` — not the stripped raw response text, which still carries the
fence markers. -/
theorem C7_counterexample :
    parse_json_response (fun _ => none) ("```\nhello\n```".toList) =
      { summary := some ("hello".toList), keywords := some [] } ∧
      ((pyStrip ("```\nhello\n```".toList) == "hello".toList) = false) := by
  decide

/-- C7 amended: whenever no JSON object can be decoded — either no
brace-to-brace span exists in the (fence-reduced) text, or `json.loads`
fails on it — `_parse_json_response` returns the record whose summary is
the response text *after extracting the content of a markdown code fence
when one is present*, stripped, with an empty keyword list; the function
is total, so no input makes it raise. -/
theorem C7_unparseable_falls_back (jsonLoads : List Char → Option JsonFields)
    (text : List Char)
    (h : ∀ span, braceSpan ((fenceExtract text).getD text) = some span →
      jsonLoads span = none) :
    parse_json_response jsonLoads text =
      { summary := some (pyStrip ((fenceExtract text).getD text)),
        keywords := some [] } := by
  unfold parse_json_response
  cases hb : braceSpan ((fenceExtract text).getD text) with
  | none => simp [hb]
  | some span => simp [hb, h span hb]

/-- C7 witness on a fence-free, JSON-free response. -/
theorem C7_unparseable_falls_back_witness :
    parse_json_response (fun _ => none) (" no json here ".toList) =
      { summary := some ("no json here".toList), keywords := some [] } := by
  have h := C7_unparseable_falls_back (fun _ => none)
    (" no json here ".toList) (fun _ _ => rfl)
  rw [h]
  decide

/-! ### Claim C2 — folder removal cascades -/

/-- C2: after `remove_watched_folder f` runs with the ES client available,
no record whose path literally starts with `f` remains in the Record
Store (`ListByFolder f` on it is empty), `f` is gone from the
watched-folders list, and listing under `f` in the Search Index is empty
as well.  The SQLite deletion uses `LIKE f + "%"`, which can only delete
*more* than the literal-prefix set, so the guarantee holds for every
folder path, wildcards included. -/
theorem C2_remove_folder_cascades (f : List Char) (st : DbState)
    (docs : List EsDoc) :
    list_by_folder f (remove_watched_folder f st (some docs)).1.files = [] ∧
      (remove_watched_folder f st (some docs)).1.watched_folders.filter
        (fun w => w.folder_path == f) = [] ∧
      (remove_watched_folder f st (some docs)).2.map
        (es_list_by_folder f) = some [] := by
  simp only [remove_watched_folder, list_by_folder, es_list_by_folder,
    Option.map_some]
  refine ⟨?_, ?_, ?_⟩
  · rw [List.filter_eq_nil_iff]
    intro r hr hpref
    rw [List.mem_filter] at hr
    have := likeMatch_of_startsWith f r.file_path hpref
    simp [this] at hr
  · rw [List.filter_eq_nil_iff]
    intro w hw hbeq
    rw [List.mem_filter] at hw
    simp [hbeq] at hw
  · simp only [Option.map_some', Option.some_inj, es_list_by_folder]
    rw [List.filter_eq_nil_iff]
    intro d hd hpref
    rw [List.mem_filter] at hd
    simp [hpref] at hd

/-! ### Claim C6 — upsert is an insert-or-replace keyed by path -/

/-- In the ON-CONFLICT branch, replacing the (unique) row with path `p`
leaves exactly that new row under the path-`p` filter. -/
theorem filter_map_update (p : List Char) (new : FileRow)
    (hnewp : new.file_path = p) :
    ∀ files : List FileRow,
      (files.map (fun r => r.file_path)).Nodup →
      files.any (fun r => r.file_path == p) = true →
      (files.map (fun r => if r.file_path == p then new else r)).filter
          (fun r => r.file_path == p) = [new] := by
  intro files
  induction files with
  | nil => intro _ h; simp at h
  | cons r rs ih =>
    intro hnd hany
    rw [List.map_cons, List.nodup_cons] at hnd
    by_cases hr : r.file_path = p
    · have hmapid :
          rs.map (fun x => if x.file_path == p then new else x) = rs := by
        have hpt : ∀ x ∈ rs, (if x.file_path == p then new else x) = x := by
          intro x hx
          have hxp : ¬ x.file_path = p := by
            intro he
            exact hnd.1 (hr ▸ he ▸ List.mem_map_of_mem (fun r => r.file_path) hx)
          simp [hxp]
        rw [List.map_congr_left hpt, List.map_id']
      have hrs : rs.filter (fun x => x.file_path == p) = [] := by
        rw [List.filter_eq_nil_iff]
        intro x hx hbeq
        exact hnd.1 (hr ▸ (by simpa using hbeq) ▸
          List.mem_map_of_mem (fun r => r.file_path) hx)
      rw [List.map_cons,
        if_pos (show (r.file_path == p) = true by simpa using hr), hmapid,
        List.filter_cons_of_pos (by simpa using hnewp), hrs]
    · have hany' : rs.any (fun x => x.file_path == p) = true := by
        rw [List.any_cons] at hany
        simpa [hr] using hany
      rw [List.map_cons,
        if_neg (show ¬ (r.file_path == p) = true by simpa using hr),
        List.filter_cons_of_neg (by simpa using hr)]
      exact ih hnd.2 hany'

/-- `upsert_file` leaves exactly the freshly written row under path `p`
whenever the store satisfies the UNIQUE(file_path) constraint. -/
theorem upsert_filter_path (files : List FileRow)
    (hnd : (files.map (fun r => r.file_path)).Nodup)
    (p name ftype : List Char) (size mtime : Int)
    (summary keywords rawText : List Char) (now : Int) :
    (upsert_file p name ftype size mtime summary keywords rawText now
        files).filter (fun r => r.file_path == p)
      = [mkFileRow p name ftype size mtime summary keywords rawText now] := by
  unfold upsert_file
  cases hany : files.any (fun r => r.file_path == p) with
  | false =>
    have h1 : files.filter (fun r => r.file_path == p) = [] := by
      rw [List.filter_eq_nil_iff]
      intro r hr hbeq
      have h2 : files.any (fun r => r.file_path == p) = true :=
        List.any_eq_true.mpr ⟨r, hr, hbeq⟩
      rw [hany] at h2
      exact Bool.false_ne_true h2
    simp [List.filter_append, h1, mkFileRow]
  | true =>
    rw [if_pos rfl]
    exact filter_map_update p _ rfl files hnd hany

/-- `upsert_file` keeps the paths of the store unchanged up to the one
insertion, so the UNIQUE(file_path) invariant is preserved. -/
theorem upsert_preserves_nodup (files : List FileRow)
    (hnd : (files.map (fun r => r.file_path)).Nodup)
    (p name ftype : List Char) (size mtime : Int)
    (summary keywords rawText : List Char) (now : Int) :
    ((upsert_file p name ftype size mtime summary keywords rawText now
        files).map (fun r => r.file_path)).Nodup := by
  unfold upsert_file
  cases hany : files.any (fun r => r.file_path == p) with
  | false =>
    have hnp : p ∉ files.map (fun r => r.file_path) := by
      intro hm
      obtain ⟨r, hr, hrp⟩ := List.mem_map.mp hm
      have h2 : files.any (fun r => r.file_path == p) = true :=
        List.any_eq_true.mpr ⟨r, hr, by simpa using hrp⟩
      rw [hany] at h2
      exact Bool.false_ne_true h2
    simp [List.nodup_append, mkFileRow, hnp, hnd]
  | true =>
    rw [if_pos rfl, List.map_map]
    have hpt : ∀ r ∈ files,
        ((fun r => r.file_path) ∘
          (fun r => if r.file_path == p then
            mkFileRow p name ftype size mtime summary keywords rawText now
          else r)) r = r.file_path := by
      intro r _
      by_cases h : r.file_path = p <;> simp [h, mkFileRow]
    rw [List.map_congr_left hpt]
    exact hnd

/-- C6: upsert is an insert-or-replace keyed by path — upserting the same
field values for path `p` twice (at wall-clock instants `t1 < t2`) leaves
exactly one record for `p`, carrying the upserted name, type, size,
modified time, summary, keywords and raw text, with the later upsert's
`indexed_at`, which is later than the first one's. -/
theorem C6_upsert_insert_or_replace (files : List FileRow)
    (hnd : (files.map (fun r => r.file_path)).Nodup)
    (p name ftype : List Char) (size mtime : Int)
    (summary keywords rawText : List Char) (t1 t2 : Int) (hlt : t1 < t2) :
    (upsert_file p name ftype size mtime summary keywords rawText t2
        (upsert_file p name ftype size mtime summary keywords rawText t1
          files)).filter (fun r => r.file_path == p)
      = [mkFileRow p name ftype size mtime summary keywords rawText t2] ∧
    (mkFileRow p name ftype size mtime summary keywords rawText t2).indexed_at
      > (mkFileRow p name ftype size mtime summary keywords rawText
          t1).indexed_at :=
  ⟨upsert_filter_path _
      (upsert_preserves_nodup files hnd p name ftype size mtime summary
        keywords rawText t1) p name ftype size mtime summary keywords
      rawText t2,
   by simpa [mkFileRow] using hlt⟩

/-- C6 witness: double upsert into a store holding one other record. -/
theorem C6_upsert_insert_or_replace_witness :
    (upsert_file ("a".toList) ("a".toList) [] 1 5 [] [] [] 2
        (upsert_file ("a".toList) ("a".toList) [] 1 5 [] [] [] 1
          [⟨"b".toList, "b".toList, [], 0, 0, [], [], [], 0⟩])).filter
        (fun r => r.file_path == "a".toList)
      = [mkFileRow ("a".toList) ("a".toList) [] 1 5 [] [] [] 2] :=
  (C6_upsert_insert_or_replace
    [⟨"b".toList, "b".toList, [], 0, 0, [], [], [], 0⟩] (by decide)
    ("a".toList) ("a".toList) [] 1 5 [] [] [] 1 2 (by decide)).1

/-! ### Claim C1 — the degraded substring search -/

/-- C1 counterexample: the unescaped terms reach SQL LIKE, where `_` is a
single-character wildcard.  With the store holding one record named `abc`
(empty summary and keywords), the query `a_c` returns that record, yet its
only term `a_c` does not occur as a case-insensitive substring of any of
the three fields — so "returns only records in which at least one term
appears as a case-insensitive substring" fails as stated. -/
theorem C1_counterexample :
    search_sqlite_fallback
        [⟨"p".toList, "abc".toList, [], 0, 0, [], [], [], 0⟩]
        ("a_c".toList) 20
      = [⟨"p".toList, "abc".toList, [], 0, 0, [], [], [], 0⟩] ∧
    (pySplit ("a_c".toList)).all (fun t =>
      !(ciContains ("abc".toList) t) && !(ciContains [] t)) = true := by
  decide

/-- C1 amended: for every query, limit and store contents, the fallback
returns at most `limit` records, each drawn from the store and satisfying
the SQL LIKE condition `%term%` on name, summary or keywords for at least
one whitespace-separated term; and whenever no term contains a LIKE
wildcard character (`%` or `_`), every returned record indeed has some
term occurring as a case-insensitive substring of its name, summary or
keywords (cases of the ASCII range being folded, as SQLite's LIKE does). -/
theorem C1_fallback_search (files : List FileRow) (query : List Char)
    (limit : Nat) :
    (search_sqlite_fallback files query limit).length ≤ limit ∧
    (∀ r ∈ search_sqlite_fallback files query limit,
        r ∈ files ∧ ∃ t ∈ pySplit query, rowLikeTerm r t = true) ∧
    ((∀ t ∈ pySplit query, noWild t = true) →
      ∀ r ∈ search_sqlite_fallback files query limit,
        ∃ t ∈ pySplit query,
          t.map Char.toLower <:+: r.file_name.map Char.toLower ∨
          t.map Char.toLower <:+: r.summary.map Char.toLower ∨
          t.map Char.toLower <:+: r.keywords.map Char.toLower) := by
  have hmem : ∀ r ∈ search_sqlite_fallback files query limit,
      r ∈ files ∧ ∃ t ∈ pySplit query, rowLikeTerm r t = true := by
    intro r hr
    unfold search_sqlite_fallback at hr
    by_cases he : (pySplit query).isEmpty
    · simp [he] at hr
    · rw [if_neg he] at hr
      have hf := List.mem_of_mem_take hr
      rw [List.mem_filter] at hf
      exact ⟨hf.1, List.any_eq_true.mp hf.2⟩
  refine ⟨?_, hmem, ?_⟩
  · unfold search_sqlite_fallback
    by_cases he : (pySplit query).isEmpty
    · simp [he]
    · rw [if_neg he, List.length_take]
      exact min_le_left _ _
  · intro hw r hr
    obtain ⟨-, t, ht, hlike⟩ := hmem r hr
    refine ⟨t, ht, ?_⟩
    unfold rowLikeTerm at hlike
    rw [likeMatch_pct_t_pct t (hw t ht), likeMatch_pct_t_pct t (hw t ht),
      likeMatch_pct_t_pct t (hw t ht)] at hlike
    rcases Bool.or_eq_true_iff.mp hlike with h | h
    · rcases Bool.or_eq_true_iff.mp h with h1 | h1
      · exact Or.inl ((ciContains_iff t _).mp h1)
      · exact Or.inr (Or.inl ((ciContains_iff t _).mp h1))
    · exact Or.inr (Or.inr ((ciContains_iff t _).mp h))

/-- C1 witness: from the record named `Budget Report` surviving the query
`budget xyz` (whose terms are wildcard-free), some term is a
case-insensitive substring of one of its fields. -/
theorem C1_fallback_search_witness :
    ∃ t ∈ pySplit ("budget xyz".toList),
      t.map Char.toLower <:+:
        ("Budget Report".toList).map Char.toLower ∨
      t.map Char.toLower <:+: (([] : List Char)).map Char.toLower ∨
      t.map Char.toLower <:+: (([] : List Char)).map Char.toLower :=
  (C1_fallback_search
      [⟨"p".toList, "Budget Report".toList, [], 0, 0, [], [], [], 0⟩]
      ("budget xyz".toList) 20).2.2
    (by decide)
    ⟨"p".toList, "Budget Report".toList, [], 0, 0, [], [], [], 0⟩
    (by decide)
